import Mathlib

/-!
Verification development for the koji-web parcel-extraction application
(`koji_web_app_optimized.py`).  The core subsystems embedded here are:

* the Option Resolver `get_options`,
* the Parcel Extractor `KojiWebExtractor.extract_data`,
* the KML Serializer `KojiWebExtractor.create_kml_from_geodataframe`
  together with `_add_polygon_to_placemark`.

The geopandas/shapely/pandas library operations the source delegates to
(attribute filtering, centroid, convex hull, overlay intersection, CRS
reprojection) are modelled as executable Lean functions over exact rational
coordinates.  Attribute cell values are modelled as strings (the columns the
application touches are the name/number attributes of a cadastral shapefile);
a missing / NaN cell is `Option.none`.  Coordinate reprojection to EPSG:4326
is modelled by an arbitrary per-EPSG point map `proj` passed as a parameter,
since the actual projection formulas live outside the program.
-/

namespace Koji

/-- A planar point with exact rational coordinates. -/
structure Pt where
  x : ℚ
  y : ℚ
deriving DecidableEq, Repr

/-- Geometry values as the application distinguishes them through shapely's
`geom_type`: points, polygons (exterior ring only — the application never
reads interior rings), multipolygons, and degenerate line strings (only
produced by a degenerate convex hull).  A polygon's ring is stored the way
shapely stores an exterior ring: as the closed vertex list (first vertex
repeated at the end). -/
inductive Geom where
  | point : Pt → Geom
  | linestring : List Pt → Geom
  | polygon : List Pt → Geom
  | multipolygon : List (List Pt) → Geom
deriving DecidableEq, Repr

/-- `shapely.geom_type`. -/
def Geom.geomType : Geom → String
  | .point _ => "Point"
  | .linestring _ => "LineString"
  | .polygon _ => "Polygon"
  | .multipolygon _ => "MultiPolygon"

/-- One dataset row: attribute cells (an association list from column name to
an optional string value, `none` modelling NaN) plus the geometry cell. -/
structure Row where
  attrs : List (String × Option String)
  geom : Option Geom
deriving DecidableEq, Repr

/-- Reading one attribute cell; a column absent from the row reads as null. -/
def Row.get (row : Row) (c : String) : Option String :=
  match row.attrs.find? (fun p => p.1 == c) with
  | some p => p.2
  | none => none

/-- The in-memory dataset: a GeoDataFrame with its column list (the `geometry`
column included), its rows, and its declared CRS (an EPSG code, or `none` when
the source file declared no CRS). -/
structure GeoDataFrame where
  cols : List String
  rows : List Row
  crs : Option Nat
deriving DecidableEq, Repr

/-! ## Sorted distinct values (`sorted(series.unique())`) -/

/-- Insert a value into a strictly sorted list, keeping it strictly sorted and
dropping the value if already present. -/
def insertUniq (a : String) : List String → List String
  | [] => [a]
  | b :: bs =>
    if a < b then a :: b :: bs
    else if a = b then b :: bs
    else b :: insertUniq a bs

/-- `sorted(values.unique())`: the strictly sorted list of the distinct
elements of `l`. -/
def sortUniq : List String → List String
  | [] => []
  | a :: as => insertUniq a (sortUniq as)

/-! ## Option Resolver: `get_options` (source lines 218–239)

```python
def get_options(gdf, column, parent_column=None, parent_value=None):
    try:
        if column not in gdf.columns:
            return None
        filtered_gdf = gdf[gdf[column].notna()]
        if parent_column and parent_value and parent_column in gdf.columns:
            filtered_gdf = filtered_gdf[
                (filtered_gdf[parent_column] == parent_value) &
                (filtered_gdf[parent_column].notna())
            ]
        if len(filtered_gdf) == 0:
            return None
        return sorted(filtered_gdf[column].unique())
    except Exception as e:
        ...
        return None
```

Python truthiness of the `parent_column and parent_value` guard is modelled
by requiring both optional arguments to be present and non-empty strings. -/

/-- Truthiness of an optional string argument, as Python's `if arg and ...`
sees it: absent (`None`) and the empty string are falsy. -/
def truthy : Option String → Bool
  | none => false
  | some s => s != ""

/-- The Option Resolver. -/
def get_options (gdf : GeoDataFrame) (column : String)
    (parent_column : Option String := none) (parent_value : Option String := none) :
    Option (List String) :=
  if column ∈ gdf.cols then
    let filtered := gdf.rows.filter (fun (r : Row) => (r.get column).isSome)
    let filtered :=
      match parent_column, parent_value with
      | some pc, some pv =>
        if pc != "" && pv != "" && gdf.cols.contains pc then
          filtered.filter (fun (r : Row) => r.get pc == some pv)
        else filtered
      | _, _ => filtered
    if filtered.isEmpty then none
    else some (sortUniq (filtered.filterMap (fun r => r.get column)))
  else none

/-! ## Geometry library model

Executable models of the shapely / geopandas geometry operations the source
invokes: `centroid` / `.x` / `.y`, `dissolve().convex_hull`, and
`overlay(..., how='intersection')`. -/

/-- Cross product of two vectors. -/
def cross (vx vy wx wy : ℚ) : ℚ := vx * wy - wx * vy

/-- Orientation of `b` then `p` as seen from `o` (twice the signed area of
triangle `o a b`). -/
def cross3 (o a b : Pt) : ℚ :=
  (a.x - o.x) * (b.y - o.y) - (a.y - o.y) * (b.x - o.x)

/-- Consecutive vertex pairs of a ring given as an open vertex list, the
closing edge included. -/
def cyclePairs : List Pt → List (Pt × Pt)
  | [] => []
  | h :: t => (h :: t).zip (t ++ [h])

/-- Strip the closing vertex of a ring stored closed (shapely's exterior-ring
representation); leaves an already-open ring unchanged. -/
def openRing (l : List Pt) : List Pt :=
  if 2 ≤ l.length ∧ l.getLast? = l.head? then l.dropLast else l

/-- Twice the signed area of the ring with open vertex list `l` (shoelace). -/
def area2 (l : List Pt) : ℚ :=
  (cyclePairs l).foldl (fun acc pq => acc + cross pq.1.x pq.1.y pq.2.x pq.2.y) 0

/-- Centroid sums of a ring: twice the signed area together with the shoelace
centroid numerators. -/
def ringSums (l : List Pt) : ℚ × ℚ × ℚ :=
  (cyclePairs l).foldl
    (fun acc pq =>
      let c := cross pq.1.x pq.1.y pq.2.x pq.2.y
      (acc.1 + c, acc.2.1 + (pq.1.x + pq.2.x) * c, acc.2.2 + (pq.1.y + pq.2.y) * c))
    (0, 0, 0)

/-- `shapely.centroid` for the geometry types the application can hold: the
area-weighted centroid for polygonal geometries (`none` for a degenerate
zero-area geometry, whose empty centroid makes a later `.x` access raise), the
point itself for a point. -/
def Geom.centroid : Geom → Option Pt
  | .point p => some p
  | .linestring _ => none
  | .polygon ring =>
    let s := ringSums (openRing ring)
    if s.1 = 0 then none else some ⟨s.2.1 / (3 * s.1), s.2.2 / (3 * s.1)⟩
  | .multipolygon rings =>
    let s := rings.foldl
      (fun acc r =>
        let t := ringSums (openRing r)
        (acc.1 + t.1, acc.2.1 + t.2.1, acc.2.2 + t.2.2))
      ((0 : ℚ), (0 : ℚ), (0 : ℚ))
    if s.1 = 0 then none else some ⟨s.2.1 / (3 * s.1), s.2.2 / (3 * s.1)⟩

/-- Lexicographic comparison of points (by `x`, then `y`). -/
def ptLex (p q : Pt) : Bool := p.x < q.x || (p.x == q.x && p.y < q.y)

/-- Insertion into a lexicographically sorted point list. -/
def insertPtLex (p : Pt) : List Pt → List Pt
  | [] => [p]
  | q :: qs => if ptLex p q then p :: q :: qs else q :: insertPtLex p qs

/-- Lexicographic insertion sort of points. -/
def sortPts : List Pt → List Pt
  | [] => []
  | p :: ps => insertPtLex p (sortPts ps)

/-- One step of the monotone-chain hull construction: push `p` onto the chain
(held in reverse), popping vertices that would create a clockwise or straight
turn. -/
def chainStep (p : Pt) : List Pt → List Pt
  | a :: b :: rest =>
    if cross3 b a p ≤ 0 then chainStep p (b :: rest) else p :: a :: b :: rest
  | l => p :: l

/-- One monotone chain over an ordered point list. -/
def buildChain (pts : List Pt) : List Pt :=
  (pts.foldl (fun acc p => chainStep p acc) []).reverse

/-- `dissolve().convex_hull` over a point set: Andrew's monotone chain (the
chain construction pops duplicate and collinear points itself).  The hull of
a single point is that point; a collinear set degenerates to a line string;
otherwise the counterclockwise hull polygon, stored as a closed ring. -/
def convexHull (pts : List Pt) : Geom :=
  match sortPts pts with
  | [] => .linestring []
  | [p] => .point p
  | s =>
    let lower := buildChain s
    let upper := buildChain s.reverse
    let ring := lower.dropLast ++ upper.dropLast
    match ring with
    | [] => .linestring []
    | [p] => .point p
    | [p, q] => .linestring [p, q]
    | h :: t => .polygon ((h :: t) ++ [h])

/-- Intersection of segment `p q` with the oriented line through `a b`, for
the Sutherland–Hodgman clipping step (callers only use it when the segment
crosses the line, making the denominator nonzero). -/
def lineIntersect (a b p q : Pt) : Pt :=
  let cp := cross3 a b p
  let cq := cross3 a b q
  let t := cp / (cp - cq)
  ⟨p.x + t * (q.x - p.x), p.y + t * (q.y - p.y)⟩

/-- Clip an (open) subject vertex list against the half-plane left of the
oriented edge `a b`. -/
def clipEdge (a b : Pt) (subj : List Pt) : List Pt :=
  (cyclePairs subj).foldl
    (fun acc pq =>
      let p := pq.1
      let q := pq.2
      if 0 ≤ cross3 a b q then
        if 0 ≤ cross3 a b p then acc ++ [q] else acc ++ [lineIntersect a b p q, q]
      else
        if 0 ≤ cross3 a b p then acc ++ [lineIntersect a b p q] else acc)
    []

/-- Clip a subject ring (closed vertex list) to a convex counterclockwise clip
ring (closed vertex list): Sutherland–Hodgman.  Returns `none` when the
result is empty or degenerate (dropped by the overlay, which keeps only
polygonal intersection results). -/
def clipRing (clip subj : List Pt) : Option (List Pt) :=
  let out := (cyclePairs (openRing clip)).foldl
    (fun acc ab => clipEdge ab.1 ab.2 acc) (openRing subj)
  match out with
  | [] => none
  | h :: t =>
    if (h :: t).length < 3 ∨ area2 (h :: t) = 0 then none
    else some ((h :: t) ++ [h])

/-- Geometric intersection of the search-envelope geometry with one parcel
geometry, as `overlay(how='intersection')` produces it: polygonal pieces only
(`keep_geom_type` drops lower-dimensional touches), `none` when the
intersection is empty. -/
def clipGeom (env : Geom) (g : Geom) : Option Geom :=
  match env with
  | .polygon envRing =>
    match g with
    | .polygon ring => (clipRing envRing ring).map Geom.polygon
    | .multipolygon rings =>
      match rings.filterMap (clipRing envRing) with
      | [] => none
      | [r] => some (.polygon r)
      | r :: rs => some (.multipolygon (r :: rs))
    | _ => none
  | _ => none

/-! ## XML / KML document model

`xml.etree.ElementTree` elements: a tag, XML attributes, optional text, and a
child list.  The text of a `coordinates` element is modelled structurally as
the list of its whitespace-separated `x,y,elevation` tokens (the source builds
it with `f"{x},{y},0 "` per exterior vertex); every other text node is a plain
string. -/

/-- Text content of an XML element. -/
inductive KText where
  | str : String → KText
  | coords : List (ℚ × ℚ × ℚ) → KText
deriving DecidableEq, Repr

/-- An XML element tree. -/
inductive Xml where
  | el : String → List (String × String) → Option KText → List Xml → Xml
deriving Repr

/-- Tag of an element. -/
def Xml.tag : Xml → String
  | .el t _ _ _ => t

/-- Children of an element. -/
def Xml.children : Xml → List Xml
  | .el _ _ _ cs => cs

/-- Text of an element. -/
def Xml.text : Xml → Option KText
  | .el _ _ t _ => t

/-- `ET.SubElement`: append a child at the end of an element's child list. -/
def Xml.appendChild (parent child : Xml) : Xml :=
  match parent with
  | .el t a tx cs => .el t a tx (cs ++ [child])

/-! ## KML Serializer (source lines 66–138) -/

/-- The KML `Polygon` element built for one exterior ring
(`_add_polygon_to_placemark`, lines 130–138): outer boundary, linear ring,
and the coordinate tokens `x,y,0` — one per exterior-ring vertex, with the
mandatory literal `0` elevation. -/
def polygonElement (ring : List Pt) : Xml :=
  .el "Polygon" [] none
    [.el "outerBoundaryIs" [] none
      [.el "LinearRing" [] none
        [.el "coordinates" []
          (some (.coords (ring.map (fun p => (p.x, p.y, (0 : ℚ)))))) []]]]

/-- `placemark.find("MultiGeometry")` followed by appending: add the polygon
to the first `MultiGeometry` child, or append a fresh `MultiGeometry` holding
it when none exists. -/
def addToMultiGeometry (poly : Xml) : List Xml → List Xml
  | [] => [Xml.el "MultiGeometry" [] none [poly]]
  | c :: cs =>
    if c.tag == "MultiGeometry" then c.appendChild poly :: cs
    else c :: addToMultiGeometry poly cs

/-- `_add_polygon_to_placemark` (lines 124–138). -/
def add_polygon_to_placemark (pm : Xml) (ring : List Pt) : Xml :=
  match pm with
  | .el t a tx cs => .el t a tx (addToMultiGeometry (polygonElement ring) cs)

/-- `str(value)` of an attribute cell (`str(nan)` prints `nan`). -/
def strCell : Option String → String
  | some v => v
  | none => "nan"

/-- Placemark name (line 95): the row's `地番` cell when that column is in the
row, a positional fallback otherwise. -/
def placemarkName (idx : Nat) (row : Row) : String :=
  match row.attrs.find? (fun p => p.1 == "地番") with
  | some p => strCell p.2
  | none => "地番_" ++ toString idx

/-- Placemark description (lines 97–102): `"<col>: <value><br/>"` concatenated
over every non-geometry column in dataset order. -/
def descriptionText (cols : List String) (row : Row) : String :=
  cols.foldl
    (fun acc c =>
      if c == "geometry" then acc
      else acc ++ c ++ ": " ++ strCell (row.get c) ++ "<br/>")
    ""

/-- The placemark before geometry processing (lines 92–105): name,
description and style reference children, in creation order. -/
def placemarkBase (cols : List String) (idx : Nat) (row : Row) : Xml :=
  .el "Placemark" [] none
    [.el "name" [] (some (.str (placemarkName idx row))) [],
     .el "description" [] (some (.str (descriptionText cols row))) [],
     .el "styleUrl" [] (some (.str "#PolygonStyle")) []]

/-- Build the placemark for one (already reprojected) row (lines 91–113).
A null geometry raises (`geom.geom_type` on `None`); a `Polygon` or each part
of a `MultiPolygon` is added through `add_polygon_to_placemark`; any other
geometry type matches neither branch of the dispatch and is silently
skipped. -/
def buildPlacemark (cols : List String) (idx : Nat) (row : Row) : Except String Xml :=
  match row.geom with
  | none => .error "NoneType object has no attribute geom_type"
  | some (.polygon ring) =>
    .ok (add_polygon_to_placemark (placemarkBase cols idx row) ring)
  | some (.multipolygon rings) =>
    .ok (rings.foldl (fun pm r => add_polygon_to_placemark pm r)
      (placemarkBase cols idx row))
  | some _ => .ok (placemarkBase cols idx row)

/-- Exception-propagating `mapM` over a list, modelling a Python loop whose
body may raise. -/
def mapME (f : α → Except String β) : List α → Except String (List β)
  | [] => .ok []
  | a :: as =>
    match f a with
    | .error e => .error e
    | .ok b =>
      match mapME f as with
      | .error e => .error e
      | .ok bs => .ok (b :: bs)

/-- Apply a point map to every coordinate of a geometry. -/
def Geom.mapPts (f : Pt → Pt) : Geom → Geom
  | .point p => .point (f p)
  | .linestring l => .linestring (l.map f)
  | .polygon ring => .polygon (ring.map f)
  | .multipolygon rings => .multipolygon (rings.map (fun r => r.map f))

/-- Apply a point map to a row's geometry. -/
def mapRowGeom (f : Pt → Pt) (row : Row) : Row :=
  ⟨row.attrs, row.geom.map (Geom.mapPts f)⟩

/-- `gdf.to_crs(epsg=4326)` (line 70): reproject every geometry to geographic
coordinates with the projection map of the frame's declared CRS; raises when
the frame has no CRS. -/
def to_crs_4326 (proj : Nat → Pt → Pt) (gdf : GeoDataFrame) :
    Except String GeoDataFrame :=
  match gdf.crs with
  | none => .error "Please set a crs on the object first."
  | some c => .ok ⟨gdf.cols, gdf.rows.map (mapRowGeom (proj c)), some 4326⟩

/-- The shared `Style` element (lines 79–88): red outline, translucent green
fill. -/
def styleElement : Xml :=
  .el "Style" [("id", "PolygonStyle")] none
    [.el "LineStyle" [] none
      [.el "color" [] (some (.str "ff0000ff")) [],
       .el "width" [] (some (.str "2")) []],
     .el "PolyStyle" [] none
      [.el "color" [] (some (.str "3300ff00")) []]]

/-- The KML document tree the serializer builds when no step raises
(lines 68–118).  Pretty-printing through `minidom` is the identity on the
tree. -/
def kmlDocE (proj : Nat → Pt → Pt) (gdf : GeoDataFrame) (name : String) :
    Except String Xml :=
  match to_crs_4326 proj gdf with
  | .error e => .error e
  | .ok wgs =>
    match mapME (fun (ir : Nat × Row) => buildPlacemark wgs.cols ir.1 ir.2)
        wgs.rows.enum with
    | .error e => .error e
    | .ok pms =>
      .ok (.el "kml" [("xmlns", "http://www.opengis.net/kml/2.2")] none
        [.el "Document" [] none
          ([Xml.el "name" [] (some (.str name)) [], styleElement] ++ pms)])

/-- `create_kml_from_geodataframe` (lines 66–122): the whole build is wrapped
in `try/except`; an exception is reported through `st.error` and the function
returns `None` — no document. -/
def create_kml_from_geodataframe (proj : Nat → Pt → Pt) (gdf : GeoDataFrame)
    (name : String := "地番データ") : Option Xml :=
  match kmlDocE proj gdf name with
  | .ok x => some x
  | .error _ => none

/-- The placemark elements of a built document. -/
def docPlacemarks (doc : Xml) : List Xml :=
  match doc.children with
  | d :: _ => d.children.filter (fun c => c.tag == "Placemark")
  | [] => []

/-! ## Parcel Extractor: `extract_data` (source lines 140–216) -/

/-- One optional hierarchy level of the search condition (lines 151–155): the
level participates only when the selection is truthy, differs from the
"選択なし" sentinel, and its column exists in the dataset. -/
def matchCondLevel (gdf : GeoDataFrame) (colName : String) (sel : Option String)
    (row : Row) : Bool :=
  match sel with
  | none => true
  | some s =>
    if s != "" && s != "選択なし" && gdf.cols.contains colName then
      (row.get colName == some s) && (row.get colName).isSome
    else true

/-- The search condition (lines 143–155): district and lot-number equality and
non-nullity, with the optional sub-district and sub-sub-district levels
conjoined under their guards. -/
def matchCond (gdf : GeoDataFrame) (oaza : String) (chome koaza : Option String)
    (chiban : String) (row : Row) : Bool :=
  (row.get "大字名" == some oaza) && (row.get "地番" == some chiban) &&
  (row.get "大字名").isSome && (row.get "地番").isSome &&
  matchCondLevel gdf "丁目名" chome row && matchCondLevel gdf "小字名" koaza row

/-- `df = gdf[search_condition]` (line 157): the target subset's rows. -/
def targetsOf (gdf : GeoDataFrame) (oaza : String) (chome koaza : Option String)
    (chiban : String) : List Row :=
  gdf.rows.filter (matchCond gdf oaza chome koaza chiban)

/-- `available_columns` (lines 163–168): the canonical summary column order,
the optional levels included when the dataset has them. -/
def availableColumns (gdf : GeoDataFrame) : List String :=
  if gdf.cols.contains "丁目名" then
    if gdf.cols.contains "小字名" then
      ["大字名", "丁目名", "小字名", "地番", "geometry"]
    else ["大字名", "丁目名", "地番", "geometry"]
  else if gdf.cols.contains "小字名" then ["大字名", "小字名", "地番", "geometry"]
  else ["大字名", "地番", "geometry"]

/-- `existing_columns` (line 170). -/
def existingColumns (gdf : GeoDataFrame) : List String :=
  (availableColumns gdf).filter (fun c => gdf.cols.contains c)

/-- `df.reindex(columns=cols)` on one row: project the attribute cells onto
the given columns in order (a requested column absent from the row reads as
null), keeping the geometry cell only when `geometry` is requested. -/
def restrictRow (cols : List String) (row : Row) : Row :=
  ⟨cols.filterMap (fun c => if c == "geometry" then none else some (c, row.get c)),
   if cols.contains "geometry" then row.geom else none⟩

/-- `df_summary` (line 171): the target subset reindexed onto the canonical
columns. -/
def summaryOf (gdf : GeoDataFrame) (oaza : String) (chome koaza : Option String)
    (chiban : String) : GeoDataFrame :=
  ⟨existingColumns gdf,
   (targetsOf gdf oaza chome koaza chiban).map (restrictRow (existingColumns gdf)),
   gdf.crs⟩

/-- Message used when a centroid is not a point (a null or degenerate
geometry), making `cen_gdf.geometry.x` raise (lines 174–177). -/
def centroidErr : String := "geometry sequence contains a non-point element"

/-- Message for `.iloc[0]` on an empty frame (line 180). -/
def ilocErr : String := "single positional indexer is out-of-bounds"

/-- Message for `set_crs(None)` (line 196). -/
def crsErr : String := "Must pass either crs or epsg."

/-- Key-error message for a missing `大字名` column (line 144). -/
def keyErrOaza : String := "'大字名'"

/-- Key-error message for a missing `地番` column (line 145). -/
def keyErrChiban : String := "'地番'"

/-- `df_summary.geometry.centroid` followed by `cen_gdf.geometry.x/.y`
(lines 174–177): the centroid of every target geometry; raises when the
geometry column is absent or when any row's centroid is not a point. -/
def centroidListE (g : GeoDataFrame) : Except String (List Pt) :=
  if g.cols.contains "geometry" then
    mapME
      (fun (r : Row) =>
        match r.geom.bind Geom.centroid with
        | some p => .ok p
        | none => .error centroidErr)
      g.rows
  else .error "geometry"

/-- The four corner points (lines 182–191): `(x₀ ± r, y₀ ± r)` in the order
top-right, lower-left, upper-left-of-centre, lower-right-of-centre, exactly as
`zip(points.lat, points.lon)` produces them. -/
def cornerPts (x0 y0 r : ℚ) : List Pt :=
  [⟨x0 + r, y0 + r⟩, ⟨x0 - r, y0 - r⟩, ⟨x0 - r, y0 + r⟩, ⟨x0 + r, y0 - r⟩]

/-- `four_points_gdf.dissolve().convex_hull` (line 194): the square search
envelope polygon. -/
def searchEnvelope (x0 y0 r : ℚ) : Geom :=
  convexHull (cornerPts x0 y0 r)

/-- The search-envelope frame `df1` (lines 174–196): centroids of the target
subset, the first row's centroid as the centre, the four corners' convex
hull, and the dataset's CRS assigned by `set_crs` (which raises on a frame
without CRS). -/
def envelopeE (gdf : GeoDataFrame) (oaza : String) (chome koaza : Option String)
    (chiban : String) (r : ℚ) : Except String (Geom × Option Nat) :=
  match centroidListE (summaryOf gdf oaza chome koaza chiban) with
  | .error e => .error e
  | .ok cents =>
    match cents with
    | [] => .error ilocErr
    | p0 :: _ =>
      match gdf.crs with
      | none => .error crsErr
      | some cr => .ok (searchEnvelope p0.x p0.y r, some cr)

/-- `valid_data` (line 199): rows with non-null lot number and non-null
geometry. -/
def validRows (gdf : GeoDataFrame) : List Row :=
  gdf.rows.filter (fun (r : Row) => (r.get "地番").isSome && r.geom.isSome)

/-- `overlay_columns` after the three positional inserts (lines 200–206). -/
def overlayColumns (gdf : GeoDataFrame) : List String :=
  (if gdf.cols.contains "大字名" then ["大字名"] else []) ++ ["地番"] ++
  (if gdf.cols.contains "丁目名" then ["丁目名"] else []) ++
  (if gdf.cols.contains "小字名" then ["小字名"] else []) ++ ["geometry"]

/-- `existing_overlay_columns` (line 208). -/
def existingOverlayColumns (gdf : GeoDataFrame) : List String :=
  (overlayColumns gdf).filter (fun c => gdf.cols.contains c)

/-- `df1.overlay(df2, how='intersection')` on the rows (line 211): for every
parcel geometry with a non-empty polygonal intersection with the envelope,
one output row carrying the clipped geometry and the parcel's attributes. -/
def overlayRows (env : Geom) (rows : List Row) : List Row :=
  rows.filterMap
    (fun (r : Row) =>
      match r.geom with
      | none => none
      | some g => (clipGeom env g).map (fun gc => Row.mk r.attrs (some gc)))

/-- The extractor's result triple. -/
abbrev ExtractResult := Option GeoDataFrame × Option GeoDataFrame × String

/-- The no-match message (line 160). -/
def noMatchMsg : String := "該当する筆が見つかりませんでした"

/-- The success message (line 213). -/
def resultMsg (nT nN : Nat) : String :=
  "対象筆: " ++ toString nT ++ "件, 周辺筆: " ++ toString nN ++ "件"

/-- The body of `extract_data` inside its `try` (lines 142–213): any raised
exception surfaces as `.error`. -/
def extractE (gdf : GeoDataFrame) (oaza : String) (chome koaza : Option String)
    (chiban : String) (r : ℚ) : Except String ExtractResult :=
  if gdf.cols.contains "大字名" then
    if gdf.cols.contains "地番" then
      let targets := targetsOf gdf oaza chome koaza chiban
      if targets.isEmpty then .ok (none, none, noMatchMsg)
      else
        let T := summaryOf gdf oaza chome koaza chiban
        match envelopeE gdf oaza chome koaza chiban r with
        | .error e => .error e
        | .ok (env, crs) =>
          let df2 : GeoDataFrame :=
            ⟨existingOverlayColumns gdf,
             (validRows gdf).map (restrictRow (existingOverlayColumns gdf)),
             gdf.crs⟩
          let N : GeoDataFrame := ⟨df2.cols, overlayRows env df2.rows, crs⟩
          .ok (some T, some N, resultMsg T.rows.length N.rows.length)
    else .error keyErrChiban
  else .error keyErrOaza

/-- `extract_data` (lines 140–216): the `try/except` wrapper turns any raised
exception into the reported `(None, None, "エラー: <description>")` triple. -/
def extract_data (gdf : GeoDataFrame) (oaza : String) (chome koaza : Option String)
    (chiban : String) (r : ℚ) : ExtractResult :=
  match extractE gdf oaza chome koaza chiban r with
  | .ok res => res
  | .error e => (none, none, "エラー: " ++ e)

/-! ## State-passing form of the extractor

To make the frame property (the input dataset is not written to) statable,
each frame-level library call is modelled as returning its result *together
with* the state of the frame it read after the call: pandas row selection and
`reindex` build new frames; the only in-place column assignments in the
source (`cen_gdf['x'] = ...`, line 176) target `cen_gdf`, a frame created
inside the call, never the caller's dataset. -/

/-- `g[predicate]`: boolean row selection; builds a new frame, the source
frame is unchanged. -/
def gdfFilter (g : GeoDataFrame) (p : Row → Bool) : GeoDataFrame × GeoDataFrame :=
  (⟨g.cols, g.rows.filter p, g.crs⟩, g)

/-- `g.reindex(columns=cols)`: builds a new frame, the source frame is
unchanged. -/
def gdfReindex (g : GeoDataFrame) (cols : List String) : GeoDataFrame × GeoDataFrame :=
  (⟨cols, g.rows.map (restrictRow cols), g.crs⟩, g)

/-- The centroid/coordinate computation (lines 174–180), reading but not
writing the summary frame. -/
def gdfCentroids (g : GeoDataFrame) : Except String (List Pt) × GeoDataFrame :=
  (centroidListE g, g)

/-- `extract_data` with the caller's dataset threaded through every step that
reads it; the second component is that dataset as the call leaves it. -/
def extract_data_run (gdf : GeoDataFrame) (oaza : String) (chome koaza : Option String)
    (chiban : String) (r : ℚ) : ExtractResult × GeoDataFrame :=
  if gdf.cols.contains "大字名" then
    if gdf.cols.contains "地番" then
      let fr := gdfFilter gdf (matchCond gdf oaza chome koaza chiban)
      let df := fr.1
      let gdf1 := fr.2
      if df.rows.isEmpty then ((none, none, noMatchMsg), gdf1)
      else
        let rr := gdfReindex df (existingColumns gdf1)
        let df_summary := rr.1
        let cr := gdfCentroids df_summary
        match cr.1 with
        | .error e => ((none, none, "エラー: " ++ e), gdf1)
        | .ok cents =>
          match cents with
          | [] => ((none, none, "エラー: " ++ ilocErr), gdf1)
          | p0 :: _ =>
            match gdf1.crs with
            | none => ((none, none, "エラー: " ++ crsErr), gdf1)
            | some c =>
              let env := searchEnvelope p0.x p0.y r
              let vr := gdfFilter gdf1
                (fun (rw : Row) => (rw.get "地番").isSome && rw.geom.isSome)
              let valid := vr.1
              let gdf2 := vr.2
              let r2 := gdfReindex valid (existingOverlayColumns gdf2)
              let df2 := r2.1
              let N : GeoDataFrame := ⟨df2.cols, overlayRows env df2.rows, some c⟩
              ((some df_summary, some N,
                resultMsg df_summary.rows.length N.rows.length), gdf2)
    else ((none, none, "エラー: " ++ keyErrChiban), gdf)
  else ((none, none, "エラー: " ++ keyErrOaza), gdf)

/-! ## Concrete example datasets -/

/-- A concrete square parcel at the origin (side 10, closed exterior ring,
centroid `(5, 5)`). -/
def parcelNear : Geom :=
  .polygon [⟨0, 0⟩, ⟨10, 0⟩, ⟨10, 10⟩, ⟨0, 10⟩, ⟨0, 0⟩]

/-- A concrete square parcel far from the origin (side 10, centroid
`(1005, 1005)`). -/
def parcelFar : Geom :=
  .polygon [⟨1000, 1000⟩, ⟨1010, 1000⟩, ⟨1010, 1010⟩, ⟨1000, 1010⟩, ⟨1000, 1000⟩]

/-- Example dataset: one parcel, district `Asahi`, lot `1174`. -/
def dsOne : GeoDataFrame :=
  ⟨["大字名", "地番", "geometry"],
   [⟨[("大字名", some "Asahi"), ("地番", some "1174")], some parcelNear⟩],
   some 6677⟩

/-- Example dataset: two parcels share district and lot number, the second
far away from the first. -/
def dsTwo : GeoDataFrame :=
  ⟨["大字名", "地番", "geometry"],
   [⟨[("大字名", some "Asahi"), ("地番", some "1")], some parcelNear⟩,
    ⟨[("大字名", some "Asahi"), ("地番", some "1")], some parcelFar⟩],
   some 6677⟩

/-- The neighbor frame produced by `extract_data dsTwo "Asahi" none none "1" 1`:
only the near parcel intersects the radius-1 envelope around `(5, 5)`, clipped
to the envelope square. -/
def dsTwoNeighbor : GeoDataFrame :=
  ⟨["大字名", "地番", "geometry"],
   [⟨[("大字名", some "Asahi"), ("地番", some "1")],
     some (Geom.polygon [⟨4, 4⟩, ⟨6, 4⟩, ⟨6, 6⟩, ⟨4, 6⟩, ⟨4, 4⟩])⟩],
   some 6677⟩

/-- Example dataset whose single row has a `Point` geometry. -/
def dsPoint : GeoDataFrame :=
  ⟨["地番", "geometry"], [⟨[("地番", some "5")], some (.point ⟨1, 2⟩)⟩], some 4326⟩

/-- Example dataset with a column `A` and no column `P`. -/
def dsNoParent : GeoDataFrame :=
  ⟨["A", "geometry"], [⟨[("A", some "v")], none⟩], some 4326⟩

/-- Example dataset lacking the mandatory `大字名` column. -/
def dsNoDistrict : GeoDataFrame := ⟨["geometry"], [], none⟩

/-! ### Lemmas about `sortUniq` -/

theorem mem_insertUniq (a v : String) (l : List String) :
    v ∈ insertUniq a l ↔ v = a ∨ v ∈ l := by
  induction l with
  | nil => simp [insertUniq]
  | cons b bs ih =>
    by_cases hab : a < b
    · simp [insertUniq, hab]
    · by_cases heq : a = b
      · subst heq
        simp [insertUniq, hab]
      · simp only [insertUniq, if_neg hab, if_neg heq, List.mem_cons, ih]
        tauto

theorem pairwise_insertUniq (a : String) (l : List String)
    (h : l.Pairwise (· < ·)) : (insertUniq a l).Pairwise (· < ·) := by
  induction l with
  | nil => simp [insertUniq]
  | cons b bs ih =>
    rcases List.pairwise_cons.mp h with ⟨hb, hbs⟩
    by_cases hab : a < b
    · simp only [insertUniq, if_pos hab]
      refine List.pairwise_cons.mpr ⟨?_, h⟩
      intro x hx
      rcases List.mem_cons.mp hx with rfl | hx
      · exact hab
      · exact lt_trans hab (hb x hx)
    · by_cases heq : a = b
      · subst heq
        simpa [insertUniq, hab] using h
      · have hba : b < a := by
          rcases lt_trichotomy a b with h1 | h1 | h1
          · exact absurd h1 hab
          · exact absurd h1 heq
          · exact h1
        simp only [insertUniq, if_neg hab, if_neg heq]
        refine List.pairwise_cons.mpr ⟨?_, ih hbs⟩
        intro x hx
        rcases (mem_insertUniq a x bs).mp hx with rfl | hx
        · exact hba
        · exact hb x hx

theorem pairwise_sortUniq (l : List String) : (sortUniq l).Pairwise (· < ·) := by
  induction l with
  | nil => simp [sortUniq]
  | cons a as ih => exact pairwise_insertUniq a _ ih

theorem mem_sortUniq (l : List String) (v : String) :
    v ∈ sortUniq l ↔ v ∈ l := by
  induction l with
  | nil => simp [sortUniq]
  | cons a as ih =>
    simp only [sortUniq]
    rw [mem_insertUniq]
    simp [ih]

theorem nodup_sortUniq (l : List String) : (sortUniq l).Nodup :=
  (pairwise_sortUniq l).imp (fun h => ne_of_lt h)

/-! ## Lemmas about `mapME` -/

theorem mapME_ok_length {f : α → Except String β} {l : List α} {ys : List β}
    (h : mapME f l = .ok ys) : ys.length = l.length := by
  induction l generalizing ys with
  | nil => simp [mapME] at h; simp [← h]
  | cons a as ih =>
    simp only [mapME] at h
    cases hfa : f a with
    | error e => rw [hfa] at h; exact absurd h (by simp)
    | ok b =>
      rw [hfa] at h
      cases hrest : mapME f as with
      | error e => rw [hrest] at h; exact absurd h (by simp)
      | ok bs =>
        rw [hrest] at h
        cases h
        simp [ih hrest]

theorem mapME_ok_get? {f : α → Except String β} {l : List α} {ys : List β}
    (h : mapME f l = .ok ys) :
    ∀ i a, l.get? i = some a → ∃ b, ys.get? i = some b ∧ f a = .ok b := by
  induction l generalizing ys with
  | nil => intro i a ha; simp at ha
  | cons x xs ih =>
    simp only [mapME] at h
    cases hfx : f x with
    | error e => rw [hfx] at h; exact absurd h (by simp)
    | ok b =>
      rw [hfx] at h
      cases hrest : mapME f xs with
      | error e => rw [hrest] at h; exact absurd h (by simp)
      | ok bs =>
        rw [hrest] at h
        cases h
        intro i a ha
        cases i with
        | zero => simp at ha; subst ha; exact ⟨b, by simp, hfx⟩
        | succ j =>
          simp only [List.get?_cons_succ] at ha ⊢
          exact ih hrest j a ha

theorem mapME_ok_mem {f : α → Except String β} {l : List α} {ys : List β}
    (h : mapME f l = .ok ys) :
    ∀ b ∈ ys, ∃ a ∈ l, f a = .ok b := by
  induction l generalizing ys with
  | nil => simp [mapME] at h; simp [h]
  | cons x xs ih =>
    simp only [mapME] at h
    cases hfx : f x with
    | error e => rw [hfx] at h; exact absurd h (by simp)
    | ok b =>
      rw [hfx] at h
      cases hrest : mapME f xs with
      | error e => rw [hrest] at h; exact absurd h (by simp)
      | ok bs =>
        rw [hrest] at h
        cases h
        intro c hc
        rcases List.mem_cons.mp hc with rfl | hc
        · exact ⟨x, List.mem_cons_self _ _, hfx⟩
        · rcases ih hrest c hc with ⟨a, ha, hfa⟩
          exact ⟨a, List.mem_cons_of_mem _ ha, hfa⟩

theorem mapME_ok_of_forall {f : α → Except String β} {l : List α}
    (h : ∀ a ∈ l, ∃ b, f a = .ok b) : ∃ ys, mapME f l = .ok ys := by
  induction l with
  | nil => exact ⟨[], rfl⟩
  | cons x xs ih =>
    rcases h x (List.mem_cons_self _ _) with ⟨b, hb⟩
    rcases ih (fun a ha => h a (List.mem_cons_of_mem _ ha)) with ⟨bs, hbs⟩
    exact ⟨b :: bs, by simp [mapME, hb, hbs]⟩

/-! ## Claim theorems -/

/-- C8: `extract_data` is deterministic — two calls with identical arguments
on an unchanged dataset return identical target subsets, neighbor subsets and
messages.  The embedding is pure because the source reads nothing but its
parameters (no session state, randomness or clock inside `extract_data`), so
equal inputs give equal result triples. -/
theorem extract_deterministic
    (gdf gdf' : GeoDataFrame) (oaza : String) (chome koaza : Option String)
    (chiban : String) (r : ℚ) (h : gdf = gdf') :
    extract_data gdf oaza chome koaza chiban r =
      extract_data gdf' oaza chome koaza chiban r := by
  rw [h]

theorem extract_deterministic_witness :
    extract_data dsOne "Asahi" none none "1174" 61 =
      extract_data dsOne "Asahi" none none "1174" 61 :=
  extract_deterministic dsOne dsOne "Asahi" none none "1174" 61 rfl

/-- C9: `extract_data` does not mutate the input dataset: in the
state-passing rendition of the extractor, which returns the caller's dataset
as every frame-reading step leaves it, the dataset coming out equals the
dataset going in — for every outcome (subsets, no-match, or error) — and the
result triple agrees with `extract_data`, so a caller can retry with
different parameters without reloading. -/
theorem extract_run_frame
    (gdf : GeoDataFrame) (oaza : String) (chome koaza : Option String)
    (chiban : String) (r : ℚ) :
    (extract_data_run gdf oaza chome koaza chiban r).2 = gdf ∧
    (extract_data_run gdf oaza chome koaza chiban r).1 =
      extract_data gdf oaza chome koaza chiban r := by
  constructor
  · simp only [extract_data_run, gdfFilter, gdfReindex, gdfCentroids]
    repeat' split
    all_goals rfl
  · simp only [extract_data_run, extract_data, extractE, envelopeE, summaryOf,
      targetsOf, gdfFilter, gdfReindex, gdfCentroids]
    repeat' split
    all_goals (first | rfl | (subst_eqs; rfl) | simp_all)

/-- C4: `extract_data` never raises to its caller: every call returns a
result triple; a predicate matching zero rows (with the mandatory columns
present, so the predicate itself is evaluable) yields the reported
no-match triple; and any exception raised inside the body degrades to the
reported `(None, None, "エラー: <description>")` triple. -/
theorem extract_reports_not_raises
    (gdf : GeoDataFrame) (oaza : String) (chome koaza : Option String)
    (chiban : String) (r : ℚ) :
    (∃ t n m, extract_data gdf oaza chome koaza chiban r = (t, n, m)) ∧
    ("大字名" ∈ gdf.cols → "地番" ∈ gdf.cols →
      targetsOf gdf oaza chome koaza chiban = [] →
      extract_data gdf oaza chome koaza chiban r = (none, none, noMatchMsg)) ∧
    (∀ e, extractE gdf oaza chome koaza chiban r = .error e →
      extract_data gdf oaza chome koaza chiban r = (none, none, "エラー: " ++ e)) := by
  refine ⟨⟨_, _, _, rfl⟩, ?_, ?_⟩
  · intro h1 h2 h3
    simp [extract_data, extractE, h1, h2, h3]
  · intro e he
    simp [extract_data, he]

theorem extract_reports_not_raises_witness :
    extract_data dsOne "Asahi" none none "9999" 61 = (none, none, noMatchMsg) ∧
    extract_data dsNoDistrict "Asahi" none none "1174" 61 =
      (none, none, "エラー: " ++ keyErrOaza) := by
  constructor
  · exact (extract_reports_not_raises dsOne "Asahi" none none "9999" 61).2.1
      (by decide) (by decide) (by decide)
  · exact (extract_reports_not_raises dsNoDistrict "Asahi" none none "1174" 61).2.2
      keyErrOaza (by rfl)

/-- C6: `get_options` with no parent constraint returns either absent or a
strictly sorted, duplicate-free sequence containing exactly the distinct
non-null values of the column; it returns absent exactly when the column is
missing from the dataset or no row has a non-null value in it. -/
theorem get_options_no_parent (gdf : GeoDataFrame) (column : String) :
    (get_options gdf column none none = none ↔
      column ∉ gdf.cols ∨ ∀ row ∈ gdf.rows, row.get column = none) ∧
    (∀ l, get_options gdf column none none = some l →
      l.Pairwise (· < ·) ∧ l.Nodup ∧
      ∀ v, v ∈ l ↔ ∃ row ∈ gdf.rows, row.get column = some v) := by
  by_cases hc : column ∈ gdf.cols
  · by_cases he : (gdf.rows.filter (fun (r : Row) => (r.get column).isSome)).isEmpty
    · have hopts : get_options gdf column none none = none := by
        simp only [get_options, if_pos hc]
        rw [if_pos he]
      rw [hopts]
      refine ⟨⟨fun _ => ?_, fun _ => rfl⟩, ?_⟩
      · right
        intro row hrow
        have h0 : ∀ a ∈ gdf.rows, ¬((a.get column).isSome = true) :=
          List.filter_eq_nil_iff.mp (List.isEmpty_iff.mp he)
        exact Option.not_isSome_iff_eq_none.mp (h0 row hrow)
      · intro l hl
        exact absurd hl (by simp)
    · have hopts : get_options gdf column none none =
          some (sortUniq ((gdf.rows.filter
            (fun (r : Row) => (r.get column).isSome)).filterMap
            (fun (r : Row) => r.get column))) := by
        simp only [get_options, if_pos hc]
        rw [if_neg he]
      rw [hopts]
      constructor
      · constructor
        · intro hl
          exact absurd hl (by simp)
        · rintro (h | h)
          · exact absurd hc h
          · exfalso
            apply he
            rw [List.isEmpty_iff, List.filter_eq_nil_iff]
            intro row hrow
            simp [h row hrow]
      · intro l hl
        have hx := Option.some.inj hl
        subst hx
        refine ⟨pairwise_sortUniq _, nodup_sortUniq _, ?_⟩
        intro v
        rw [mem_sortUniq, List.mem_filterMap]
        constructor
        · rintro ⟨row, hrow, hv⟩
          exact ⟨row, (List.mem_filter.mp hrow).1, hv⟩
        · rintro ⟨row, hrow, hv⟩
          exact ⟨row, List.mem_filter.mpr ⟨hrow, by simp [hv]⟩, hv⟩
  · have hopts : get_options gdf column none none = none := by
      simp [get_options, hc]
    rw [hopts]
    refine ⟨⟨fun _ => Or.inl hc, fun _ => rfl⟩, ?_⟩
    intro l hl
    exact absurd hl (by simp)

theorem get_options_no_parent_witness :
    get_options dsTwo "大字名" none none = some ["Asahi"] ∧
    (["Asahi"] : List String).Pairwise (· < ·) ∧
    (["Asahi"] : List String).Nodup ∧
    ∀ v, v ∈ (["Asahi"] : List String) ↔
      ∃ row ∈ dsTwo.rows, row.get "大字名" = some v := by
  have h : get_options dsTwo "大字名" none none = some ["Asahi"] := by
    simp [get_options, dsTwo, Row.get, sortUniq, insertUniq]
  exact ⟨h, (get_options_no_parent dsTwo "大字名").2 ["Asahi"] h⟩

/-- C3 (amended): when both parent arguments are supplied truthy AND the
parent column exists in the dataset's columns, every value `get_options`
returns is drawn only from rows whose parent cell is non-null and equals the
given parent value.  (When the parent column is absent from the dataset, the
guard on line 226 skips the parent filter entirely and values may come from
any row — see the counterexample.) -/
theorem get_options_parent_filtered
    (gdf : GeoDataFrame) (column pc pv : String) (l : List String)
    (hpc : pc ≠ "") (hpv : pv ≠ "") (hmem : pc ∈ gdf.cols)
    (h : get_options gdf column (some pc) (some pv) = some l) :
    ∀ v ∈ l, ∃ row ∈ gdf.rows, row.get pc = some pv ∧ row.get column = some v := by
  by_cases hc : column ∈ gdf.cols
  · simp only [get_options, if_pos hc] at h
    have hguard : (pc != "" && pv != "" && gdf.cols.contains pc) = true := by
      simp [bne_iff_ne, hpc, hpv, hmem]
    rw [if_pos hguard] at h
    set inner := (gdf.rows.filter (fun (r : Row) => (r.get column).isSome)).filter
      (fun (r : Row) => r.get pc == some pv) with hinner
    by_cases he : inner.isEmpty
    · rw [if_pos he] at h
      exact absurd h (by simp)
    · rw [if_neg he] at h
      have hx := Option.some.inj h
      subst hx
      intro v hv
      rw [mem_sortUniq, List.mem_filterMap] at hv
      rcases hv with ⟨row, hrow, hvv⟩
      rw [hinner] at hrow
      have h2 := List.mem_filter.mp hrow
      have h3 := List.mem_filter.mp h2.1
      refine ⟨row, h3.1, ?_, hvv⟩
      simpa using h2.2
  · simp only [get_options, if_neg hc] at h
    exact absurd h (by simp)

/-- C3 counterexample: the claim as stated is false — with a parent
constraint (`P` = `"x"`) supplied but the column `P` absent from the dataset,
`get_options` still returns the value `"v"`, although no row has a non-null
`P` cell equal to `"x"` (the dataset has no `P` cells at all). -/
theorem get_options_parent_ignored_cex :
    get_options dsNoParent "A" (some "P") (some "x") = some ["v"] ∧
    dsNoParent.rows.all (fun (row : Row) => row.get "P" == none) = true := by
  constructor
  · simp [get_options, dsNoParent, Row.get, sortUniq, insertUniq]
  · decide

theorem get_options_parent_filtered_witness :
    get_options dsTwo "地番" (some "大字名") (some "Asahi") = some ["1"] ∧
    ∀ v ∈ (["1"] : List String), ∃ row ∈ dsTwo.rows,
      row.get "大字名" = some "Asahi" ∧ row.get "地番" = some v :=
  by
  have h : get_options dsTwo "地番" (some "大字名") (some "Asahi") = some ["1"] := by
    simp [get_options, dsTwo, Row.get, sortUniq, insertUniq]
  exact ⟨h, get_options_parent_filtered dsTwo "地番" "大字名" "Asahi" ["1"]
    (by decide) (by decide) (by decide) h⟩

/-- C1: the search envelope is built from the first matching row only: when
the target subset is non-empty and the first target centroid is `p0`, the
envelope frame `df1` holds exactly the convex hull of the four corner points
`(p0.x ± r, p0.y ± r)` (`searchEnvelope`) with the dataset's CRS assigned;
and any dataset with the same first target centroid and the same CRS yields
the identical envelope — the centroids of matching rows after the first have
no effect on it. -/
theorem envelope_first_row_only
    (gdf : GeoDataFrame) (oaza : String) (chome koaza : Option String)
    (chiban : String) (r : ℚ) (p0 : Pt) (rest : List Pt) (cr : Nat)
    (hne : targetsOf gdf oaza chome koaza chiban ≠ [])
    (hcent : centroidListE (summaryOf gdf oaza chome koaza chiban) = .ok (p0 :: rest))
    (hcrs : gdf.crs = some cr) :
    envelopeE gdf oaza chome koaza chiban r =
      .ok (searchEnvelope p0.x p0.y r, some cr) ∧
    ∀ (gdf' : GeoDataFrame) (rest' : List Pt),
      centroidListE (summaryOf gdf' oaza chome koaza chiban) = .ok (p0 :: rest') →
      gdf'.crs = some cr →
      envelopeE gdf' oaza chome koaza chiban r =
        envelopeE gdf oaza chome koaza chiban r := by
  have hgdf : envelopeE gdf oaza chome koaza chiban r =
      .ok (searchEnvelope p0.x p0.y r, some cr) := by
    unfold envelopeE
    rw [hcent]
    simp [hcrs]
  refine ⟨hgdf, ?_⟩
  intro gdf' rest' hcent' hcrs'
  rw [hgdf]
  unfold envelopeE
  rw [hcent']
  simp [hcrs']

/-! ### Structural lemmas about the KML builders -/

theorem appendChild_tag (c poly : Xml) : (c.appendChild poly).tag = c.tag := by
  cases c; rfl

theorem add_polygon_children (pm : Xml) (ring : List Pt) :
    (add_polygon_to_placemark pm ring).children =
      addToMultiGeometry (polygonElement ring) pm.children := by
  cases pm; rfl

theorem add_polygon_tag (pm : Xml) (ring : List Pt) :
    (add_polygon_to_placemark pm ring).tag = pm.tag := by
  cases pm; rfl

theorem addToMultiGeometry_filter_polygon (poly : Xml) (cs : List Xml) :
    (addToMultiGeometry poly cs).filter (fun ch => ch.tag == "Polygon") =
      cs.filter (fun ch => ch.tag == "Polygon") := by
  induction cs with
  | nil => rfl
  | cons c cs ih =>
    by_cases h : c.tag == "MultiGeometry"
    · simp only [addToMultiGeometry, if_pos h]
      have hc : (c.tag == "Polygon") = false := by
        rw [eq_of_beq h]; rfl
      rw [List.filter_cons, List.filter_cons, appendChild_tag, hc]
      simp
    · simp only [addToMultiGeometry, if_neg h]
      rw [List.filter_cons, List.filter_cons, ih]

theorem foldl_add_polygon_tag (rings : List (List Pt)) (pm : Xml) :
    (rings.foldl (fun acc r => add_polygon_to_placemark acc r) pm).tag = pm.tag := by
  induction rings generalizing pm with
  | nil => rfl
  | cons r rs ih => rw [List.foldl_cons, ih, add_polygon_tag]

theorem foldl_add_polygon_no_direct (rings : List (List Pt)) (pm : Xml)
    (h : pm.children.filter (fun ch => ch.tag == "Polygon") = []) :
    ((rings.foldl (fun acc r => add_polygon_to_placemark acc r) pm).children.filter
      (fun ch => ch.tag == "Polygon")) = [] := by
  induction rings generalizing pm with
  | nil => exact h
  | cons r rs ih =>
    rw [List.foldl_cons]
    refine ih _ ?_
    rw [add_polygon_children, addToMultiGeometry_filter_polygon]
    exact h

theorem buildPlacemark_tag (cols : List String) (idx : Nat) (row : Row) (pm : Xml)
    (h : buildPlacemark cols idx row = .ok pm) : pm.tag = "Placemark" := by
  unfold buildPlacemark at h
  cases hg : row.geom with
  | none => rw [hg] at h; exact absurd h (by simp)
  | some g =>
    rw [hg] at h
    cases g with
    | point p => cases h; rfl
    | linestring l => cases h; rfl
    | polygon ring =>
      cases h
      rw [add_polygon_tag]
      rfl
    | multipolygon rs =>
      cases h
      rw [foldl_add_polygon_tag]
      rfl

theorem buildPlacemark_polygon (cols : List String) (idx : Nat) (row : Row)
    (ring : List Pt) (hg : row.geom = some (.polygon ring)) :
    buildPlacemark cols idx row = .ok (Xml.el "Placemark" [] none
      [Xml.el "name" [] (some (.str (placemarkName idx row))) [],
       Xml.el "description" [] (some (.str (descriptionText cols row))) [],
       Xml.el "styleUrl" [] (some (.str "#PolygonStyle")) [],
       Xml.el "MultiGeometry" [] none [polygonElement ring]]) := by
  unfold buildPlacemark
  rw [hg]
  rfl

theorem buildPlacemark_ok_of_some (cols : List String) (idx : Nat) (row : Row)
    (h : row.geom.isSome = true) :
    ∃ pm, buildPlacemark cols idx row = .ok pm := by
  unfold buildPlacemark
  cases hg : row.geom with
  | none => simp [hg] at h
  | some g => cases g <;> exact ⟨_, rfl⟩

theorem to_crs_ok (proj : Nat → Pt → Pt) (gdf : GeoDataFrame) (c : Nat)
    (hc : gdf.crs = some c) :
    to_crs_4326 proj gdf =
      .ok ⟨gdf.cols, gdf.rows.map (mapRowGeom (proj c)), some 4326⟩ := by
  unfold to_crs_4326
  rw [hc]

theorem enum_map_snd (l : List α) : l.enum.map Prod.snd = l :=
  List.enumFrom_map_snd 0 l

theorem kmlDocE_ok (proj : Nat → Pt → Pt) (gdf : GeoDataFrame) (name : String)
    (c : Nat) (hc : gdf.crs = some c)
    (hall : ∀ row ∈ gdf.rows, row.geom.isSome = true) :
    ∃ doc, kmlDocE proj gdf name = .ok doc := by
  have hw := to_crs_ok proj gdf c hc
  set wgs : GeoDataFrame :=
    ⟨gdf.cols, gdf.rows.map (mapRowGeom (proj c)), some 4326⟩ with hwgs
  have hall' : ∀ ir ∈ wgs.rows.enum,
      ∃ pm, buildPlacemark wgs.cols ir.1 ir.2 = .ok pm := by
    intro ir hir
    have h2 : ir.2 ∈ wgs.rows := by
      have hm := List.mem_map_of_mem Prod.snd hir
      rwa [enum_map_snd] at hm
    rw [hwgs] at h2
    rcases List.mem_map.mp h2 with ⟨row0, hrow0, heq⟩
    apply buildPlacemark_ok_of_some
    rw [← heq]
    simp only [mapRowGeom]
    rcases Option.isSome_iff_exists.mp (hall row0 hrow0) with ⟨g0, hg0⟩
    rw [hg0]
    rfl

  rcases mapME_ok_of_forall hall' with ⟨pms, hpms⟩
  refine ⟨Xml.el "kml" [("xmlns", "http://www.opengis.net/kml/2.2")] none
    [Xml.el "Document" [] none
      ([Xml.el "name" [] (some (.str name)) [], styleElement] ++ pms)], ?_⟩
  unfold kmlDocE
  simp only [hw, hpms]

theorem docPlacemarks_of_kmlDocE (proj : Nat → Pt → Pt) (gdf : GeoDataFrame)
    (name : String) (wgs : GeoDataFrame) (pms : List Xml) (doc : Xml)
    (hw : to_crs_4326 proj gdf = .ok wgs)
    (hp : mapME (fun ir : Nat × Row => buildPlacemark wgs.cols ir.1 ir.2)
      wgs.rows.enum = .ok pms)
    (hdoc : kmlDocE proj gdf name = .ok doc) :
    docPlacemarks doc = pms := by
  unfold kmlDocE at hdoc
  simp only [hw, hp] at hdoc
  cases hdoc
  unfold docPlacemarks
  simp only [Xml.children]
  rw [List.filter_append]
  have h1 : (([Xml.el "name" [] (some (.str name)) [], styleElement]).filter
      (fun ch => ch.tag == "Placemark")) = [] := rfl
  rw [h1, List.nil_append]
  apply List.filter_eq_self.mpr
  intro pm hpm
  rcases mapME_ok_mem hp pm hpm with ⟨ir, _, hb⟩
  rw [buildPlacemark_tag _ _ _ _ hb]
  rfl

theorem envelope_first_row_only_witness :
    targetsOf dsTwo "Asahi" none none "1" ≠ [] ∧
    envelopeE dsTwo "Asahi" none none "1" 1 =
      .ok (searchEnvelope 5 5 1, some 6677) ∧
    searchEnvelope 5 5 1 =
      .polygon [⟨4, 4⟩, ⟨6, 4⟩, ⟨6, 6⟩, ⟨4, 6⟩, ⟨4, 4⟩] := by
  refine ⟨by decide, ?_, by
    norm_num [searchEnvelope, convexHull, cornerPts, sortPts, insertPtLex, ptLex,
      buildChain, chainStep, cross3]⟩
  refine (envelope_first_row_only dsTwo "Asahi" none none "1" 1 ⟨5, 5⟩
    [⟨1005, 1005⟩] 6677 (by decide) ?_ rfl).1
  have h : summaryOf dsTwo "Asahi" none none "1" =
      ⟨["大字名", "地番", "geometry"],
       [⟨[("大字名", some "Asahi"), ("地番", some "1")], some parcelNear⟩,
        ⟨[("大字名", some "Asahi"), ("地番", some "1")], some parcelFar⟩],
       some 6677⟩ := by decide
  rw [h]
  norm_num [centroidListE, mapME, Geom.centroid, ringSums, openRing, cyclePairs,
    parcelNear, parcelFar, cross]

/-- C2 (amended/corrected): the serializer does not fail on unsupported
geometry types.  Provided the frame has a CRS and no null geometry (so no
step raises), the serializer returns a document, and a row whose geometry
type is neither `Polygon` nor `MultiPolygon` gets a placemark with no
geometry element at all — the dispatch on lines 109–113 has no branch for it
and silently skips it. -/
theorem serializer_skips_unsupported
    (proj : Nat → Pt → Pt) (gdf : GeoDataFrame) (name : String) (c : Nat)
    (hc : gdf.crs = some c)
    (hall : ∀ row ∈ gdf.rows, row.geom.isSome = true) :
    (create_kml_from_geodataframe proj gdf name).isSome = true ∧
    ∀ (cols : List String) (idx : Nat) (row : Row) (g : Geom),
      row.geom = some g →
      g.geomType ≠ "Polygon" → g.geomType ≠ "MultiPolygon" →
      ∃ pm, buildPlacemark cols idx row = .ok pm ∧
        pm.children.map Xml.tag = ["name", "description", "styleUrl"] := by
  constructor
  · rcases kmlDocE_ok proj gdf name c hc hall with ⟨doc, hdoc⟩
    unfold create_kml_from_geodataframe
    rw [hdoc]
    rfl
  · intro cols idx row g hg h1 h2
    cases g with
    | point p =>
      refine ⟨placemarkBase cols idx row, ?_, rfl⟩
      unfold buildPlacemark
      rw [hg]
    | linestring l =>
      refine ⟨placemarkBase cols idx row, ?_, rfl⟩
      unfold buildPlacemark
      rw [hg]
    | polygon ring => exact absurd rfl h1
    | multipolygon rs => exact absurd rfl h2

/-- C2 counterexample: called on a subset containing a `Point` geometry the
serializer returns a document — it does not report an error and return no
document; the point row's placemark just carries no geometry child (the
claim as stated is false on the code). -/
theorem serializer_point_returns_document_cex :
    (create_kml_from_geodataframe (fun _ p => p) dsPoint "n").isSome = true ∧
    (create_kml_from_geodataframe (fun _ p => p) dsPoint "n").map
      (fun d => (docPlacemarks d).map (fun pm => pm.children.map Xml.tag)) =
      some [["name", "description", "styleUrl"]] := by
  exact ⟨rfl, rfl⟩

theorem serializer_skips_unsupported_witness :
    (create_kml_from_geodataframe (fun _ p => p) dsPoint "n").isSome = true ∧
    ∃ pm, buildPlacemark ["地番", "geometry"] 0
        ⟨[("地番", some "5")], some (.point ⟨1, 2⟩)⟩ = .ok pm ∧
      pm.children.map Xml.tag = ["name", "description", "styleUrl"] := by
  have h := serializer_skips_unsupported (fun _ p => p) dsPoint "n" 4326 rfl
    (by decide)
  exact ⟨h.1, h.2 ["地番", "geometry"] 0
    ⟨[("地番", some "5")], some (.point ⟨1, 2⟩)⟩ (.point ⟨1, 2⟩) rfl
    (by decide) (by decide)⟩

/-- C10: every polygon element the serializer emits is nested inside a
`MultiGeometry` container: no placemark carries a `Polygon` element as a
direct child (for any geometry, and for every placemark of any document the
serializer builds), and a row whose geometry is a single `Polygon` gets its
polygon wrapped in a freshly created `MultiGeometry` child. -/
theorem placemark_nests_polygons :
    (∀ (cols : List String) (idx : Nat) (row : Row) (pm : Xml),
      buildPlacemark cols idx row = .ok pm →
      pm.children.filter (fun ch => ch.tag == "Polygon") = []) ∧
    (∀ (cols : List String) (idx : Nat) (row : Row) (ring : List Pt) (pm : Xml),
      row.geom = some (.polygon ring) →
      buildPlacemark cols idx row = .ok pm →
      ∃ nameE descE styleE, pm.children =
        [nameE, descE, styleE,
         Xml.el "MultiGeometry" [] none [polygonElement ring]]) ∧
    (∀ (proj : Nat → Pt → Pt) (gdf : GeoDataFrame) (name : String) (doc : Xml),
      kmlDocE proj gdf name = .ok doc →
      ∀ pm ∈ docPlacemarks doc,
        pm.children.filter (fun ch => ch.tag == "Polygon") = []) := by
  have part1 : ∀ (cols : List String) (idx : Nat) (row : Row) (pm : Xml),
      buildPlacemark cols idx row = .ok pm →
      pm.children.filter (fun ch => ch.tag == "Polygon") = [] := by
    intro cols idx row pm h
    unfold buildPlacemark at h
    cases hg : row.geom with
    | none => rw [hg] at h; exact absurd h (by simp)
    | some g =>
      rw [hg] at h
      cases g with
      | point p => cases h; rfl
      | linestring l => cases h; rfl
      | polygon ring =>
        cases h
        rw [add_polygon_children, addToMultiGeometry_filter_polygon]
        rfl
      | multipolygon rs =>
        cases h
        exact foldl_add_polygon_no_direct rs _ rfl
  refine ⟨part1, ?_, ?_⟩
  · intro cols idx row ring pm hg h
    rw [buildPlacemark_polygon cols idx row ring hg] at h
    cases h
    exact ⟨_, _, _, rfl⟩
  · intro proj gdf name doc hdoc pm hpm
    unfold kmlDocE at hdoc
    cases hw : to_crs_4326 proj gdf with
    | error e => rw [hw] at hdoc; exact absurd hdoc (by simp)
    | ok wgs =>
      rw [hw] at hdoc
      simp only [] at hdoc
      cases hp : mapME (fun ir : Nat × Row => buildPlacemark wgs.cols ir.1 ir.2)
          wgs.rows.enum with
      | error e => rw [hp] at hdoc; exact absurd hdoc (by simp)
      | ok pms =>
        rw [hp] at hdoc
        cases hdoc
        unfold docPlacemarks at hpm
        simp only [Xml.children] at hpm
        rw [List.filter_append] at hpm
        rcases List.mem_append.mp hpm with hmem | hmem
        · have hnil : (([Xml.el "name" [] (some (.str name)) [],
              styleElement]).filter (fun ch => ch.tag == "Placemark")) = [] := rfl
          rw [hnil] at hmem
          exact absurd hmem (List.not_mem_nil pm)
        · rcases mapME_ok_mem hp pm (List.mem_filter.mp hmem).1 with ⟨ir, _, hb⟩
          exact part1 _ _ _ _ hb

theorem placemark_nests_polygons_witness :
    ∃ pm, buildPlacemark ["大字名", "地番", "geometry"] 0
        ⟨[("大字名", some "Asahi"), ("地番", some "1174")], some parcelNear⟩ =
        .ok pm ∧
      pm.children.filter (fun ch => ch.tag == "Polygon") = [] ∧
      ∃ nameE descE styleE, pm.children =
        [nameE, descE, styleE, Xml.el "MultiGeometry" [] none
          [polygonElement [⟨0, 0⟩, ⟨10, 0⟩, ⟨10, 10⟩, ⟨0, 10⟩, ⟨0, 0⟩]]] := by
  have hb := buildPlacemark_polygon ["大字名", "地番", "geometry"] 0
    ⟨[("大字名", some "Asahi"), ("地番", some "1174")], some parcelNear⟩
    [⟨0, 0⟩, ⟨10, 0⟩, ⟨10, 10⟩, ⟨0, 10⟩, ⟨0, 0⟩] rfl
  refine ⟨_, hb, placemark_nests_polygons.1 _ _ _ _ hb, ?_⟩
  exact placemark_nests_polygons.2.1 _ _ _ _ _ rfl hb

/-- C7: for every row carrying a `Polygon` geometry, the emitted placemark
holds exactly one `MultiGeometry`, containing exactly one `Polygon` with
exactly one outer-boundary ring, whose coordinate list is the reprojected
(`proj c`, the frame's CRS-to-WGS84 map) exterior ring emitted as `x,y,0`
triples — as many coordinates as the source exterior ring has vertices, each
with a trailing zero elevation. -/
theorem kml_polygon_ring_structure
    (proj : Nat → Pt → Pt) (gdf : GeoDataFrame) (name : String) (c : Nat)
    (doc : Xml) (i : Nat) (row : Row) (ring : List Pt)
    (hc : gdf.crs = some c)
    (hdoc : kmlDocE proj gdf name = .ok doc)
    (hrow : gdf.rows.get? i = some row)
    (hg : row.geom = some (.polygon ring)) :
    ∃ pm nameE descE styleE,
      (docPlacemarks doc).get? i = some pm ∧
      pm.children = [nameE, descE, styleE,
        Xml.el "MultiGeometry" [] none
          [Xml.el "Polygon" [] none
            [Xml.el "outerBoundaryIs" [] none
              [Xml.el "LinearRing" [] none
                [Xml.el "coordinates" []
                  (some (.coords ((ring.map (proj c)).map
                    (fun p => (p.x, p.y, (0 : ℚ)))))) []]]]]] ∧
      ((ring.map (proj c)).map (fun p => (p.x, p.y, (0 : ℚ)))).length =
        ring.length ∧
      ∀ t ∈ (ring.map (proj c)).map (fun p => (p.x, p.y, (0 : ℚ))),
        t.2.2 = 0 := by
  have hw := to_crs_ok proj gdf c hc
  set wgs : GeoDataFrame :=
    ⟨gdf.cols, gdf.rows.map (mapRowGeom (proj c)), some 4326⟩ with hwgs
  have hwrow : wgs.rows.get? i = some (mapRowGeom (proj c) row) := by
    show (gdf.rows.map (mapRowGeom (proj c))).get? i =
      some (mapRowGeom (proj c) row)
    rw [List.get?_map, hrow]
    rfl
  have henum : wgs.rows.enum.get? i = some (i, mapRowGeom (proj c) row) := by
    rw [List.get?_enum, hwrow]
    rfl
  cases hp : mapME (fun ir : Nat × Row => buildPlacemark wgs.cols ir.1 ir.2)
      wgs.rows.enum with
  | error e =>
    exfalso
    unfold kmlDocE at hdoc
    simp only [hw, hp] at hdoc
    exact absurd hdoc (by simp)
  | ok pms =>
    have hdp : docPlacemarks doc = pms :=
      docPlacemarks_of_kmlDocE proj gdf name wgs pms doc hw hp hdoc
    rcases mapME_ok_get? hp i _ henum with ⟨pm, hpmi, hbp⟩
    have hg' : (mapRowGeom (proj c) row).geom =
        some (.polygon (ring.map (proj c))) := by
      simp [mapRowGeom, hg, Geom.mapPts]
    rw [buildPlacemark_polygon wgs.cols i (mapRowGeom (proj c) row)
      (ring.map (proj c)) hg'] at hbp
    cases hbp
    refine ⟨Xml.el "Placemark" [] none
        [Xml.el "name" []
          (some (.str (placemarkName i (mapRowGeom (proj c) row)))) [],
         Xml.el "description" []
          (some (.str (descriptionText wgs.cols (mapRowGeom (proj c) row)))) [],
         Xml.el "styleUrl" [] (some (.str "#PolygonStyle")) [],
         Xml.el "MultiGeometry" [] none [polygonElement (ring.map (proj c))]],
      Xml.el "name" []
        (some (.str (placemarkName i (mapRowGeom (proj c) row)))) [],
      Xml.el "description" []
        (some (.str (descriptionText wgs.cols (mapRowGeom (proj c) row)))) [],
      Xml.el "styleUrl" [] (some (.str "#PolygonStyle")) [], ?_, rfl, by simp, ?_⟩
    · rw [hdp]
      exact hpmi
    · intro t ht
      rcases List.mem_map.mp ht with ⟨p, _, hpt⟩
      rw [← hpt]

/-! ### Concrete evaluations on `dsTwo` (shared by several witnesses) -/

theorem dsTwo_summary : summaryOf dsTwo "Asahi" none none "1" = dsTwo := by
  decide

theorem dsTwo_centroids :
    centroidListE (summaryOf dsTwo "Asahi" none none "1") =
      .ok [⟨5, 5⟩, ⟨1005, 1005⟩] := by
  rw [dsTwo_summary]
  norm_num [centroidListE, dsTwo, mapME, Geom.centroid, ringSums, openRing,
    cyclePairs, parcelNear, parcelFar, cross]

theorem searchEnvelope_5_5_1 :
    searchEnvelope 5 5 1 =
      Geom.polygon [⟨4, 4⟩, ⟨6, 4⟩, ⟨6, 6⟩, ⟨4, 6⟩, ⟨4, 4⟩] := by
  norm_num [searchEnvelope, convexHull, cornerPts, sortPts, insertPtLex, ptLex,
    buildChain, chainStep, cross3]

theorem dsTwo_envelopeE :
    envelopeE dsTwo "Asahi" none none "1" 1 =
      .ok (Geom.polygon [⟨4, 4⟩, ⟨6, 4⟩, ⟨6, 6⟩, ⟨4, 6⟩, ⟨4, 4⟩], some 6677) := by
  unfold envelopeE
  rw [dsTwo_centroids]
  simp only [searchEnvelope_5_5_1]
  rfl

theorem clip_envelope_parcelNear :
    clipGeom (Geom.polygon [⟨4, 4⟩, ⟨6, 4⟩, ⟨6, 6⟩, ⟨4, 6⟩, ⟨4, 4⟩]) parcelNear =
      some (Geom.polygon [⟨4, 4⟩, ⟨6, 4⟩, ⟨6, 6⟩, ⟨4, 6⟩, ⟨4, 4⟩]) := by
  norm_num [clipGeom, clipRing, openRing, cyclePairs, clipEdge, lineIntersect,
    cross3, area2, cross, parcelNear]

theorem clip_envelope_parcelFar :
    clipGeom (Geom.polygon [⟨4, 4⟩, ⟨6, 4⟩, ⟨6, 6⟩, ⟨4, 6⟩, ⟨4, 4⟩]) parcelFar =
      none := by
  norm_num [clipGeom, clipRing, openRing, cyclePairs, clipEdge, lineIntersect,
    cross3, area2, cross, parcelFar]

theorem dsTwo_overlayRows :
    overlayRows (Geom.polygon [⟨4, 4⟩, ⟨6, 4⟩, ⟨6, 6⟩, ⟨4, 6⟩, ⟨4, 4⟩])
      ((validRows dsTwo).map (restrictRow (existingOverlayColumns dsTwo))) =
      dsTwoNeighbor.rows := by
  have h1 : (validRows dsTwo).map (restrictRow (existingOverlayColumns dsTwo)) =
      dsTwo.rows := by decide
  rw [h1]
  show List.filterMap _ [_, _] = _
  rw [List.filterMap_cons, List.filterMap_cons, List.filterMap_nil]
  simp only [clip_envelope_parcelNear, clip_envelope_parcelFar, Option.map_some,
    Option.map_none]
  rfl

theorem dsTwo_extractE :
    extractE dsTwo "Asahi" none none "1" 1 =
      .ok (some dsTwo, some dsTwoNeighbor, resultMsg 2 1) := by
  have h1 : dsTwo.cols.contains "大字名" = true := rfl
  have h2 : dsTwo.cols.contains "地番" = true := rfl
  have h3 : (targetsOf dsTwo "Asahi" none none "1").isEmpty = false := rfl
  simp only [extractE, h1, h2, h3, if_true, Bool.false_eq_true, if_false,
    dsTwo_envelopeE, dsTwo_summary, dsTwo_overlayRows]
  rfl

theorem dsTwo_extract :
    extract_data dsTwo "Asahi" none none "1" 1 =
      (some dsTwo, some dsTwoNeighbor, resultMsg 2 1) := by
  unfold extract_data
  rw [dsTwo_extractE]

theorem kml_polygon_ring_structure_witness :
    ∃ doc pm nameE descE styleE,
      kmlDocE (fun _ p => p) dsOne "n" = .ok doc ∧
      (docPlacemarks doc).get? 0 = some pm ∧
      pm.children = [nameE, descE, styleE,
        Xml.el "MultiGeometry" [] none
          [Xml.el "Polygon" [] none
            [Xml.el "outerBoundaryIs" [] none
              [Xml.el "LinearRing" [] none
                [Xml.el "coordinates" []
                  (some (.coords ((([⟨0, 0⟩, ⟨10, 0⟩, ⟨10, 10⟩, ⟨0, 10⟩,
                    ⟨0, 0⟩] : List Pt).map (fun p => p)).map
                    (fun p => (p.x, p.y, (0 : ℚ)))))) []]]]]] ∧
      ((([⟨0, 0⟩, ⟨10, 0⟩, ⟨10, 10⟩, ⟨0, 10⟩, ⟨0, 0⟩] : List Pt).map
        (fun p => p)).map (fun p => (p.x, p.y, (0 : ℚ)))).length =
        ([⟨0, 0⟩, ⟨10, 0⟩, ⟨10, 10⟩, ⟨0, 10⟩, ⟨0, 0⟩] : List Pt).length := by
  obtain ⟨doc, hdoc⟩ : ∃ doc, kmlDocE (fun _ p => p) dsOne "n" = .ok doc :=
    kmlDocE_ok (fun _ p => p) dsOne "n" 6677 rfl (by decide)
  obtain ⟨pm, nameE, descE, styleE, h1, h2, h3, _⟩ :=
    kml_polygon_ring_structure (fun _ p => p) dsOne "n" 6677 doc 0
      ⟨[("大字名", some "Asahi"), ("地番", some "1174")], some parcelNear⟩
      [⟨0, 0⟩, ⟨10, 0⟩, ⟨10, 10⟩, ⟨0, 10⟩, ⟨0, 0⟩] rfl hdoc rfl rfl
  exact ⟨doc, pm, nameE, descE, styleE, hdoc, h1, h2, h3⟩

/-- C5 counterexample: the claim as stated is false.  On `dsTwo` (two rows
match; the second parcel lies 1000 units away) with radius 1, the target
subset has 2 rows but the neighbor subset has exactly 1: the far target
geometry appears nowhere among the intersection results — its intersection
with the envelope around the *first* row's centroid is empty. -/
theorem extract_far_target_absent_cex :
    extract_data dsTwo "Asahi" none none "1" 1 =
      (some dsTwo, some dsTwoNeighbor, resultMsg 2 1) ∧
    dsTwo.rows.any (fun r => r.geom == some parcelFar) = true ∧
    dsTwo.rows.length = 2 ∧
    dsTwoNeighbor.rows.length = 1 ∧
    dsTwoNeighbor.rows.all (fun nr => nr.geom != some parcelFar) = true ∧
    clipGeom (Geom.polygon [⟨4, 4⟩, ⟨6, 4⟩, ⟨6, 6⟩, ⟨4, 6⟩, ⟨4, 4⟩]) parcelFar =
      none :=
  ⟨dsTwo_extract, by decide, rfl, rfl, by decide, clip_envelope_parcelFar⟩

/-- C5 (amended): whenever an extraction with the target subset `T` and the
neighbor subset `N` succeeds, every target-subset geometry whose polygonal
intersection with the search envelope is non-empty appears, clipped, among
the neighbor subset's rows.  A target geometry with empty intersection —
possible for any matching row after the first, whose centroid can lie
arbitrarily far from the envelope — is absent (see the counterexample). -/
theorem target_clipped_into_neighbors
    (gdf : GeoDataFrame) (oaza : String) (chome koaza : Option String)
    (chiban : String) (r : ℚ) (T N : GeoDataFrame) (m : String)
    (env : Geom) (crs : Option Nat) (row : Row) (g gc : Geom)
    (hE : extract_data gdf oaza chome koaza chiban r = (some T, some N, m))
    (henv : envelopeE gdf oaza chome koaza chiban r = .ok (env, crs))
    (hrow : row ∈ T.rows) (hg : row.geom = some g)
    (hclip : clipGeom env g = some gc) :
    ∃ nr ∈ N.rows, nr.geom = some gc := by
  have hEE : extractE gdf oaza chome koaza chiban r = .ok (some T, some N, m) := by
    unfold extract_data at hE
    cases hX : extractE gdf oaza chome koaza chiban r with
    | ok res =>
      rw [hX] at hE
      simp only [] at hE
      rw [hE]
    | error e => rw [hX] at hE; simp at hE
  have hGeomSum : (existingColumns gdf).contains "geometry" = true := by
    by_contra hng
    unfold envelopeE at henv
    unfold centroidListE at henv
    rw [show (summaryOf gdf oaza chome koaza chiban).cols =
      existingColumns gdf from rfl] at henv
    rw [if_neg hng] at henv
    simp at henv
  have hGeomCols : gdf.cols.contains "geometry" = true := by
    have hmem : "geometry" ∈ existingColumns gdf := List.elem_iff.mp hGeomSum
    exact (List.mem_filter.mp hmem).2
  have hGeomOv : (existingOverlayColumns gdf).contains "geometry" = true := by
    apply List.elem_iff.mpr
    apply List.mem_filter.mpr
    refine ⟨?_, hGeomCols⟩
    unfold overlayColumns
    simp
  by_cases h1 : gdf.cols.contains "大字名" = true
  case neg =>
    unfold extractE at hEE
    rw [if_neg h1] at hEE
    simp at hEE
  by_cases h2 : gdf.cols.contains "地番" = true
  case neg =>
    unfold extractE at hEE
    rw [if_pos h1, if_neg h2] at hEE
    simp at hEE
  cases hemp : (targetsOf gdf oaza chome koaza chiban).isEmpty with
  | true =>
    simp only [extractE, h1, h2, hemp, if_true] at hEE
    simp at hEE
  | false =>
    simp only [extractE, h1, h2, hemp, Bool.false_eq_true, if_false, if_true,
      henv] at hEE
    rw [Except.ok.injEq, Prod.mk.injEq, Prod.mk.injEq, Option.some.injEq,
      Option.some.injEq] at hEE
    obtain ⟨hT, hN, _⟩ := hEE
    rw [← hT] at hrow
    rcases List.mem_map.mp hrow with ⟨row0, hrow0, hrestr⟩
    have hrow0geom : row0.geom = some g := by
      rw [← hrestr] at hg
      unfold restrictRow at hg
      rw [if_pos hGeomSum] at hg
      exact hg
    have hrow0f := List.mem_filter.mp hrow0
    have hchiban : (row0.get "地番").isSome = true := by
      have hc := hrow0f.2
      unfold matchCond at hc
      simp only [Bool.and_eq_true] at hc
      exact hc.1.1.2
    have hvalid : row0 ∈ validRows gdf := by
      apply List.mem_filter.mpr
      refine ⟨hrow0f.1, ?_⟩
      simp [hchiban, hrow0geom]
    have hdf2 : restrictRow (existingOverlayColumns gdf) row0 ∈
        (validRows gdf).map (restrictRow (existingOverlayColumns gdf)) :=
      List.mem_map_of_mem _ hvalid
    have hgeom2 : (restrictRow (existingOverlayColumns gdf) row0).geom = some g := by
      unfold restrictRow
      rw [if_pos hGeomOv]
      exact hrow0geom
    refine ⟨⟨(restrictRow (existingOverlayColumns gdf) row0).attrs, some gc⟩, ?_, rfl⟩
    rw [← hN]
    apply List.mem_filterMap.mpr
    refine ⟨restrictRow (existingOverlayColumns gdf) row0, hdf2, ?_⟩
    simp [hgeom2, hclip]

theorem target_clipped_into_neighbors_witness :
    ∃ nr ∈ dsTwoNeighbor.rows,
      nr.geom = some (Geom.polygon [⟨4, 4⟩, ⟨6, 4⟩, ⟨6, 6⟩, ⟨4, 6⟩, ⟨4, 4⟩]) := by
  refine target_clipped_into_neighbors dsTwo "Asahi" none none "1" 1 dsTwo
    dsTwoNeighbor (resultMsg 2 1)
    (Geom.polygon [⟨4, 4⟩, ⟨6, 4⟩, ⟨6, 6⟩, ⟨4, 6⟩, ⟨4, 4⟩]) (some 6677)
    ⟨[("大字名", some "Asahi"), ("地番", some "1")], some parcelNear⟩
    parcelNear (Geom.polygon [⟨4, 4⟩, ⟨6, 4⟩, ⟨6, 6⟩, ⟨4, 6⟩, ⟨4, 4⟩])
    dsTwo_extract dsTwo_envelopeE (by decide) rfl clip_envelope_parcelNear

end Koji
